import Mathlib

/-!
Shallow embedding of the mitch device session / discovery subsystem
(`src/bluetooth/mitch.rs`, `src/bluetooth/mod.rs`, `src/app.rs`).

Radio I/O is modelled by explicit outcome parameters: every fallible
radio call (connect, disconnect, write, read) takes a `Bool` success
flag or an `Option` result, and a Rust panic (out-of-bounds index,
integer underflow) is modelled as `Option.none` at the call boundary.
Rust strings are modelled as `List Char`.
-/

namespace Mitchrs

instance {α β : Type} [DecidableEq α] [DecidableEq β] :
    DecidableEq (Except α β) := fun
  | .ok a, .ok b =>
    if h : a = b then isTrue (by rw [h]) else
      isFalse (fun hc => by cases hc; exact h rfl)
  | .ok _, .error _ => isFalse (fun hc => by cases hc)
  | .error _, .ok _ => isFalse (fun hc => by cases hc)
  | .error a, .error b =>
    if h : a = b then isTrue (by rw [h]) else
      isFalse (fun hc => by cases hc; exact h rfl)

/-- Operating states reported by the device firmware
(`MitchState`, mitch.rs lines 55-68). -/
inductive MitchState where
  | SysStartup
  | SysIdle
  | SysStandby
  | SysLog
  | SysReadout
  | SysTx
  | SysError
  | BootStartup
  | BootIdle
  | BootDownload
deriving DecidableEq, Repr, Fintype

/-- The `repr(u8)` discriminant of each `MitchState` variant
(mitch.rs lines 58-67). -/
def MitchState.code : MitchState → Nat
  | .SysStartup => 0x01
  | .SysIdle => 0x02
  | .SysStandby => 0x03
  | .SysLog => 0x04
  | .SysReadout => 0x05
  | .SysTx => 0xF8
  | .SysError => 0xFF
  | .BootStartup => 0xF0
  | .BootIdle => 0xF1
  | .BootDownload => 0xF2

/-- Embedding of `impl TryFrom<u8> for MitchState` (mitch.rs lines 70-85).
The guard is the source's range/equality check; the inner match embeds
the semantics of the source's `unsafe` byte-to-enum reinterpretation,
which is exactly "the variant whose `repr(u8)` discriminant is the
byte".  The error carries the offending byte (source: eyre message
with the value). -/
def MitchState.tryFrom (value : Nat) : Except Nat MitchState :=
  if (1 ≤ value ∧ value ≤ 5) ∨ value = 0xF8 ∨ value = 0xFF ∨
      value = 0xF0 ∨ value = 0xF1 ∨ value = 0xF2 then
    match value with
    | 0x01 => .ok .SysStartup
    | 0x02 => .ok .SysIdle
    | 0x03 => .ok .SysStandby
    | 0x04 => .ok .SysLog
    | 0x05 => .ok .SysReadout
    | 0xF8 => .ok .SysTx
    | 0xFF => .ok .SysError
    | 0xF0 => .ok .BootStartup
    | 0xF1 => .ok .BootIdle
    | 0xF2 => .ok .BootDownload
    | _ => .error value
  else .error value

/-- The read-and-decode step of `Mitch::update_state` (mitch.rs line
173): index byte 4 of the response, then `MitchState::try_from`.
`none` models the Rust panic when the response has fewer than 5 bytes
(the source indexes `[4]` directly). -/
def decodeFrame (resp : List Nat) : Option (Except Nat MitchState) :=
  resp[4]?.map MitchState.tryFrom

/-- Protocol errors as named by the specification (§4.1). -/
inductive ProtoError where
  | UnknownState (b : Nat)
  | ShortFrame
deriving DecidableEq, Repr

/-- Modelled from the spec (§4.1 `decode_state`): the defensive
counterpart of the decode step, which returns `ProtoError.ShortFrame`
on responses shorter than 5 bytes instead of panicking, and
`ProtoError.UnknownState` on an unrecognized code byte.  This
definition follows the spec's words; the source (`decodeFrame`) only
indexes the byte directly. -/
def decodeStateSpec (resp : List Nat) : Except ProtoError MitchState :=
  match resp[4]? with
  | none => .error .ShortFrame
  | some b =>
    match MitchState.tryFrom b with
    | .ok s => .ok s
    | .error v => .error (.UnknownState v)

/-- The command set (`Commands`, mitch.rs lines 87-91). -/
inductive Commands where
  | GetState
  | StartStream
  | StopStream
deriving DecidableEq, Repr

/-- Embedding of `impl AsRef<[u8]> for Commands` (mitch.rs lines 93-101). -/
def Commands.as_ref : Commands → List Nat
  | .GetState => [130, 0]
  | .StartStream => [0x02, 0x03, 0xF8, 0x04, 0x04]
  | .StopStream => [0x02, 0x01, 0x02]

/-- A device session (`Mitch`, mitch.rs lines 21-27).  The radio
peripheral handle is opaque and modelled by a `Nat` identifier; the
display name is a list of characters. -/
structure Mitch where
  name : List Char
  per : Nat
  connected : Bool
  state : Option MitchState
deriving DecidableEq, Repr

/-- Embedding of `Mitch::new` (mitch.rs lines 104-120): a fresh session starts
disconnected with no operating state (the spawned notification drain
has no effect on session state). -/
def Mitch.mkNew (name : List Char) (per : Nat) : Mitch :=
  { name := name, per := per, connected := false, state := none }

/-- Embedding of `Mitch::connect` (mitch.rs lines 178-186).  `ok1` is the outcome
of the radio-level `connect`, `ok2` of `discover_services`; both
propagate with `?`, leaving the session unchanged.  The returned
`Bool` is the Rust `Result` (true = `Ok`). -/
def Mitch.connect (s : Mitch) (ok1 ok2 : Bool) : Mitch × Bool :=
  if s.connected then (s, true)
  else if ok1 = false then (s, false)
  else if ok2 = false then (s, false)
  else ({ s with connected := true }, true)

/-- Embedding of `Mitch::disconnect` (mitch.rs lines 188-195).  `ok` is the outcome
of the radio-level close; on failure the `?` returns early and the
session is left unchanged.  Note the source never clears `state`. -/
def Mitch.disconnect (s : Mitch) (ok : Bool) : Mitch × Bool :=
  if s.connected = false then (s, true)
  else if ok = false then (s, false)
  else ({ s with connected := false }, true)

/-- Embedding of `Mitch::update_state` (mitch.rs lines 159-176).  `writeOk` is the
outcome of writing the `GetState` frame; `read` is the radio read
result (`none` = transport failure).  The outer `none` models the
panic when the read response is indexed out of bounds at `[4]`.  The
command-characteristic lookup (`find ... .unwrap()`) is assumed to
succeed, as everywhere in the source after service discovery. -/
def Mitch.update_state (s : Mitch) (writeOk : Bool) (read : Option (List Nat)) :
    Option (Mitch × Bool) :=
  if s.connected = false then some ({ s with state := none }, true)
  else if writeOk = false then some (s, false)
  else
    match read with
    | none => some (s, false)
    | some bytes =>
      match bytes[4]? with
      | none => none
      | some b =>
        match MitchState.tryFrom b with
        | .ok st => some ({ s with state := some st }, true)
        | .error _ => some (s, false)

/-- One user-driven or poll operation on a session, tagged with the
outcomes of its radio calls. -/
inductive SessionOp where
  | connect (ok1 ok2 : Bool)
  | disconnect (ok : Bool)
  | updateState (writeOk : Bool) (read : Option (List Nat))
deriving DecidableEq, Repr

/-- Apply one operation to a session, keeping only the session state
(`none` = the operation panicked). -/
def Mitch.stepOp (s : Mitch) : SessionOp → Option Mitch
  | .connect o1 o2 => some (s.connect o1 o2).1
  | .disconnect ok => some (s.disconnect ok).1
  | .updateState w r => (s.update_state w r).map Prod.fst

/-- Run a sequence of operations on a session. -/
def Mitch.runOps (s : Mitch) (ops : List SessionOp) : Option Mitch :=
  ops.foldlM Mitch.stepOp s

/-- The session invariant claimed by the spec (§3 Device Session):
the operating state is `None` whenever the session is disconnected. -/
def SessionInv (s : Mitch) : Prop :=
  s.connected = false → s.state = none

instance (s : Mitch) : Decidable (SessionInv s) := by
  unfold SessionInv; infer_instance

/-- The radio environment one registry-refresh iteration sees for one
session: outcome of the `GetState` write, the read result, and the
outcome of the best-effort disconnect. -/
structure Env where
  wOk : Bool
  read : Option (List Nat)
  dOk : Bool

/-- One iteration of `MitchList::update` (mitch.rs lines 255-260) on
one session: poll it, and on poll failure attempt a disconnect,
ignoring the disconnect's result.  `none` = the poll panicked. -/
def pollStep (m : Mitch) (e : Env) : Option Mitch :=
  match m.update_state e.wOk e.read with
  | none => none
  | some (m', true) => some m'
  | some (m', false) => some (m'.disconnect e.dOk).1

/-- The loop of `MitchList::update` over a list of indices, mutating
the session vector in place (`self.inner[i]`). -/
def updateGo (envs : Nat → Env) : List Nat → List Mitch → Option (List Mitch)
  | [], l => some l
  | i :: rest, l =>
    match l[i]? with
    | none => updateGo envs rest l
    | some m =>
      match pollStep m (envs i) with
      | none => none
      | some m' => updateGo envs rest (l.set i m')

/-- Embedding of `MitchList::update` (mitch.rs lines 254-263): visit the sessions
at indices `(0..len).rev()` — reverse insertion order — polling each
and disconnecting it on poll failure.  The source always returns
`Ok(())`; the only non-`some` outcome here is a panic inside a poll. -/
def MitchList.update (l : List Mitch) (envs : Nat → Env) : Option (List Mitch) :=
  updateGo envs (List.range l.length).reverse l

/-- Embedding of `App::next` (app.rs lines 146-148) as compiled in a debug build:
`min(active + 1, len - 1)` on `usize`, where overflow or underflow
panics (`none`).  On an empty registry `len - 1` underflows. -/
def App.next_dbg (l : List Mitch) (active : Nat) : Option Nat :=
  if l.length = 0 then none
  else if active + 1 ≥ 2 ^ 64 then none
  else some (min (active + 1) (l.length - 1))

/-- Embedding of `App::next` (app.rs lines 146-148) as compiled in a release build:
`usize` arithmetic wraps modulo `2^64`. -/
def App.next_rel (l : List Mitch) (active : Nat) : Nat :=
  min ((active + 1) % 2 ^ 64) ((l.length + 2 ^ 64 - 1) % 2 ^ 64)

/-- Embedding of `App::prev` (app.rs lines 150-152): `active.saturating_sub(1)`,
which is exactly truncated subtraction on `Nat`. -/
def App.prev (active : Nat) : Nat := active - 1

/-- Radio adapter power state (btleplug `CentralState`). -/
inductive CentralState where
  | Unknown
  | PoweredOn
  | PoweredOff
deriving DecidableEq, Repr

/-- Advertised properties of a discovered peripheral (the part the
discovery task reads: `local_name`). -/
structure PeripheralProps where
  localName : Option (List Char)
deriving DecidableEq, Repr

/-- A radio discovery-stream event (mod.rs lines 59-85): either a
`DeviceDiscovered` event carrying the peripheral handle and its
fetched properties, or any other central event, which the task
ignores. -/
inductive CentralEv where
  | DeviceDiscovered (per : Nat) (props : Option PeripheralProps)
  | OtherEvent
deriving DecidableEq, Repr

/-- Events the subsystem emits (`BluetoothEvent`, mod.rs lines 15-20). -/
inductive BluetoothEvent where
  | Discovered (m : Mitch)
  | Lost (name : List Char)
  | NotActive
deriving DecidableEq, Repr

/-- The name computed by the discovery task (mod.rs lines 64-67):
`properties.and_then(local_name).unwrap_or_default().to_lowercase()`. -/
def discoveredName (props : Option PeripheralProps) : List Char :=
  ((props.bind PeripheralProps.localName).getD []).map Char.toLower

/-- The body of the discovery loop for one central event (mod.rs
lines 60-85): on `DeviceDiscovered`, if the lower-cased name starts
with `"mitch"`, emit three `Discovered` events (with sleeps between
them), each wrapping a fresh session around the same peripheral and
name; otherwise, and on any other event, emit nothing. -/
def handleCentral : CentralEv → List BluetoothEvent
  | .DeviceDiscovered per props =>
    let name := discoveredName props
    if List.isPrefixOf ['m', 'i', 't', 'c', 'h'] name then
      [.Discovered (Mitch.mkNew name per),
       .Discovered (Mitch.mkNew name per),
       .Discovered (Mitch.mkNew name per)]
    else []
  | .OtherEvent => []

/-- Embedding of `BtleDiscoverTask::run` (mod.rs lines 40-88): if the adapter is
not powered on, emit a single `NotActive` and terminate without
scanning; otherwise scan and process every discovery event in turn
until the stream ends. -/
def BtleDiscoverTask.run (st : CentralState) (events : List CentralEv) :
    List BluetoothEvent :=
  if st ≠ CentralState.PoweredOn then [.NotActive]
  else (events.map handleCentral).flatten

end Mitchrs

namespace Mitchrs

set_option maxRecDepth 40000 in
theorem tryFrom_not_code (c : Nat) (hlt : c < 256)
    (h : ∀ s : MitchState, c ≠ s.code) : MitchState.tryFrom c = .error c := by
  revert h
  revert hlt
  revert c
  decide

/-- Claim C7: command encoding is pure and deterministic (a total Lean
function), and `GetState`, `StartStream`, `StopStream` encode to
exactly the listed byte sequences (mitch.rs lines 93-101). -/
theorem c7_encode :
    Commands.as_ref Commands.GetState = [0x82, 0x00] ∧
    Commands.as_ref Commands.StartStream = [0x02, 0x03, 0xF8, 0x04, 0x04] ∧
    Commands.as_ref Commands.StopStream = [0x02, 0x01, 0x02] :=
  ⟨rfl, rfl, rfl⟩

/-- Claim C5: for each of the ten defined operating-state wire codes,
decoding a 5-byte frame with that code at offset 4 yields exactly the
matching state, independently of the other four bytes (which are
never validated); every byte value outside the ten codes yields the
unknown-state error carrying that byte. -/
theorem c5_decode_table :
    (∀ (s : MitchState) (b0 b1 b2 b3 : Nat),
      decodeFrame [b0, b1, b2, b3, s.code] = some (.ok s)) ∧
    (∀ (c b0 b1 b2 b3 : Nat), c < 256 → (∀ s : MitchState, c ≠ s.code) →
      decodeFrame [b0, b1, b2, b3, c] = some (.error c)) := by
  constructor
  · intro s b0 b1 b2 b3
    cases s <;> rfl
  · intro c b0 b1 b2 b3 hlt hnc
    show some (MitchState.tryFrom c) = some (.error c)
    rw [tryFrom_not_code c hlt hnc]

theorem c5_decode_table_witness :
    decodeFrame [0x00, 0x00, 0x00, 0x00, 0x02] = some (.ok .SysIdle) ∧
    decodeFrame [1, 2, 3, 4, 6] = some (.error 6) :=
  ⟨c5_decode_table.1 MitchState.SysIdle 0 0 0 0,
   c5_decode_table.2 6 1 2 3 4 (by decide) (by decide)⟩

/-- Claim C6 (code bug): on a 4-byte response the read-and-decode
step of `update_state` panics on the out-of-bounds index `[4]`
(modelled as `none`) instead of failing with the spec's
`ProtoError.ShortFrame`; the spec-modelled defensive decoder returns
`ShortFrame` at that same input. -/
theorem c6_short_frame_panics :
    Mitch.update_state
        { name := ['m'], per := 0, connected := true, state := none }
        true (some [0x00, 0x00, 0x00, 0x00]) = none ∧
    decodeFrame [0x00, 0x00, 0x00, 0x00] = none ∧
    decodeStateSpec [0x00, 0x00, 0x00, 0x00] = .error .ShortFrame := by
  decide

/-- Claim C4 (code bug): on an empty registry `App::next` computes
`min(active + 1, 0 - 1)` on `usize`: in a debug build the
subtraction underflow panics (`none`), and with release wrapping the
active index becomes 1, outside any valid range — not the no-op the
spec requires.  `App::prev` on an empty registry is a genuine no-op. -/
theorem c4_empty_registry_next :
    App.next_dbg [] 0 = none ∧ App.next_rel [] 0 = 1 ∧ App.prev 0 = 0 := by
  refine ⟨rfl, ?_, rfl⟩
  show min (1 % 2 ^ 64) ((0 + 2 ^ 64 - 1) % 2 ^ 64) = 1
  norm_num

/-- Claim C9: whenever the adapter's power state is anything but
powered-on, the discovery task emits exactly one `NotActive` event
and terminates before scanning, no matter what events the stream
would later carry (mod.rs lines 45-50). -/
theorem c9_radio_off (st : CentralState) (h : st ≠ CentralState.PoweredOn)
    (events : List CentralEv) :
    BtleDiscoverTask.run st events = [BluetoothEvent.NotActive] := by
  unfold BtleDiscoverTask.run
  simp [h]

theorem c9_radio_off_witness :
    BtleDiscoverTask.run CentralState.PoweredOff [CentralEv.OtherEvent] =
      [BluetoothEvent.NotActive] :=
  c9_radio_off CentralState.PoweredOff (by decide) [CentralEv.OtherEvent]

end Mitchrs

namespace Mitchrs

/-- Claim C8: for every discovery event, a `Discovered` event is
emitted if and only if the advertised local name — defaulted to empty
when absent and folded to lower case — starts with "mitch"; a
non-matching peripheral contributes no event and the task goes on to
process the remaining events of the stream (mod.rs lines 59-86). -/
theorem c8_discovery_filter (per : Nat) (props : Option PeripheralProps)
    (rest : List CentralEv) :
    ((∃ m, BluetoothEvent.Discovered m ∈
        handleCentral (CentralEv.DeviceDiscovered per props)) ↔
      List.isPrefixOf ['m', 'i', 't', 'c', 'h'] (discoveredName props) = true) ∧
    (List.isPrefixOf ['m', 'i', 't', 'c', 'h'] (discoveredName props) = false →
      handleCentral (CentralEv.DeviceDiscovered per props) = [] ∧
      BtleDiscoverTask.run CentralState.PoweredOn
          (CentralEv.DeviceDiscovered per props :: rest) =
        BtleDiscoverTask.run CentralState.PoweredOn rest) := by
  cases h : List.isPrefixOf ['m', 'i', 't', 'c', 'h'] (discoveredName props) with
  | true =>
    refine ⟨⟨fun _ => rfl, fun _ => ?_⟩, fun hf => Bool.noConfusion hf⟩
    exact ⟨Mitch.mkNew (discoveredName props) per, by simp [handleCentral, h]⟩
  | false =>
    have hemp : handleCentral (CentralEv.DeviceDiscovered per props) = [] := by
      simp [handleCentral, h]
    refine ⟨⟨?_, fun ht => Bool.noConfusion ht⟩, fun _ => ⟨hemp, ?_⟩⟩
    · intro hex
      obtain ⟨m, hm⟩ := hex
      rw [hemp] at hm
      exact absurd hm (List.not_mem_nil (BluetoothEvent.Discovered m))
    · simp [BtleDiscoverTask.run, hemp]

theorem c8_discovery_filter_witness :
    (∃ m, BluetoothEvent.Discovered m ∈
      handleCentral (CentralEv.DeviceDiscovered 7
        (some ⟨some ['M', 'I', 'T', 'C', 'H', '-', '0', '7']⟩))) ∧
    handleCentral (CentralEv.DeviceDiscovered 8
      (some ⟨some ['o', 't', 'h', 'e', 'r', '-', 'd', 'e', 'v', 'i', 'c', 'e']⟩)) = [] :=
  ⟨(c8_discovery_filter 7 (some ⟨some ['M', 'I', 'T', 'C', 'H', '-', '0', '7']⟩) []).1.mpr
      (by decide),
   ((c8_discovery_filter 8
      (some ⟨some ['o', 't', 'h', 'e', 'r', '-', 'd', 'e', 'v', 'i', 'c', 'e']⟩) []).2
      (by decide)).1⟩

/-- Claim C10 (implicit): a peripheral whose case-folded name starts
with "mitch" makes the task emit three separate `Discovered` events,
each wrapping a fresh session around the same peripheral handle and
the same name, and duplicate discoveries of the same device are not
deduplicated: two discovery events for the same peripheral yield two
full triples (mod.rs lines 68-82). -/
theorem c10_triple_emit (per : Nat) (props : Option PeripheralProps)
    (h : List.isPrefixOf ['m', 'i', 't', 'c', 'h'] (discoveredName props) = true) :
    handleCentral (CentralEv.DeviceDiscovered per props) =
      [BluetoothEvent.Discovered (Mitch.mkNew (discoveredName props) per),
       BluetoothEvent.Discovered (Mitch.mkNew (discoveredName props) per),
       BluetoothEvent.Discovered (Mitch.mkNew (discoveredName props) per)] ∧
    BtleDiscoverTask.run CentralState.PoweredOn
        [CentralEv.DeviceDiscovered per props, CentralEv.DeviceDiscovered per props] =
      [BluetoothEvent.Discovered (Mitch.mkNew (discoveredName props) per),
       BluetoothEvent.Discovered (Mitch.mkNew (discoveredName props) per),
       BluetoothEvent.Discovered (Mitch.mkNew (discoveredName props) per),
       BluetoothEvent.Discovered (Mitch.mkNew (discoveredName props) per),
       BluetoothEvent.Discovered (Mitch.mkNew (discoveredName props) per),
       BluetoothEvent.Discovered (Mitch.mkNew (discoveredName props) per)] := by
  have h1 : handleCentral (CentralEv.DeviceDiscovered per props) =
      [BluetoothEvent.Discovered (Mitch.mkNew (discoveredName props) per),
       BluetoothEvent.Discovered (Mitch.mkNew (discoveredName props) per),
       BluetoothEvent.Discovered (Mitch.mkNew (discoveredName props) per)] := by
    simp [handleCentral, h]
  exact ⟨h1, by simp [BtleDiscoverTask.run, h1]⟩

theorem c10_triple_emit_witness :
    handleCentral (CentralEv.DeviceDiscovered 3
        (some ⟨some ['m', 'i', 't', 'c', 'h', '1']⟩)) =
      [BluetoothEvent.Discovered (Mitch.mkNew ['m', 'i', 't', 'c', 'h', '1'] 3),
       BluetoothEvent.Discovered (Mitch.mkNew ['m', 'i', 't', 'c', 'h', '1'] 3),
       BluetoothEvent.Discovered (Mitch.mkNew ['m', 'i', 't', 'c', 'h', '1'] 3)] :=
  (c10_triple_emit 3 (some ⟨some ['m', 'i', 't', 'c', 'h', '1']⟩) (by decide)).1

/-- Claim C2's counterexample: on a connected session holding an
operating state, a disconnect whose radio-level close fails leaves the
session still `Connected`, and a disconnect whose close succeeds
leaves the operating state set — both contradicting the claim that
any disconnect forces `Disconnected` with state `None`. -/
theorem c2_counterexample :
    (Mitch.disconnect
        { name := ['m'], per := 0, connected := true, state := some .SysIdle }
        false).1.connected = true ∧
    (Mitch.disconnect
        { name := ['m'], per := 0, connected := true, state := some .SysIdle }
        true).1.state = some .SysIdle := by
  decide

/-- Claim C2 as amended: `disconnect()` is a no-op that succeeds on an
already-disconnected session; on a connected session it marks the
session `Disconnected` only when the radio-level close succeeds,
leaving `state` untouched, and on a failed close it propagates the
error with the session unchanged — still `Connected`
(mitch.rs lines 188-195). -/
theorem c2_amended (s : Mitch) :
    (s.connected = false → ∀ ok, s.disconnect ok = (s, true)) ∧
    (s.connected = true →
      s.disconnect false = (s, false) ∧
      s.disconnect true = ({ s with connected := false }, true)) := by
  unfold Mitch.disconnect
  constructor
  · intro h ok
    simp [h]
  · intro h
    simp [h]

theorem c2_amended_witness :
    Mitch.disconnect
        { name := ['m'], per := 1, connected := true, state := some .SysIdle } true =
      ({ name := ['m'], per := 1, connected := false, state := some .SysIdle }, true) :=
  ((c2_amended { name := ['m'], per := 1, connected := true, state := some .SysIdle }).2
    rfl).2

end Mitchrs

namespace Mitchrs

theorem Mitch.runOps_append (ops₁ ops₂ : List SessionOp) (s : Mitch) :
    Mitch.runOps s (ops₁ ++ ops₂) =
      (Mitch.runOps s ops₁).bind (fun m => Mitch.runOps m ops₂) := by
  induction ops₁ generalizing s with
  | nil => simp [Mitch.runOps]
  | cons a l ih =>
    show Mitch.runOps s (a :: (l ++ ops₂)) = _
    cases h : Mitch.stepOp s a with
    | none =>
      simp [Mitch.runOps, h]
    | some m =>
      simp only [Mitch.runOps, List.foldlM_cons, h, Option.bind_eq_bind,
        Option.some_bind] at *
      exact ih m

theorem Mitch.update_state_inv (s : Mitch) (w : Bool) (r : Option (List Nat))
    (out : Mitch × Bool) (h : s.update_state w r = some out) : SessionInv out.1 := by
  unfold Mitch.update_state at h
  by_cases hc : s.connected = false
  · rw [if_pos hc] at h
    cases h
    intro _
    rfl
  · rw [if_neg hc] at h
    intro hfalse
    exfalso
    apply hc
    split at h
    · cases h
      exact hfalse
    · split at h
      · cases h
        exact hfalse
      · split at h
        · cases h
        · split at h
          · cases h
            exact hfalse
          · cases h
            exact hfalse

/-- Claim C1's counterexample: starting from a fresh session, a
successful connect, a successful poll reading `[0,0,0,0,0x02]`, and a
successful disconnect leave the session `Disconnected` while its
operating state is still `Some SysIdle` — `disconnect` never clears
`state` (mitch.rs lines 188-195), so the claimed invariant fails
right after the disconnect call. -/
theorem c1_counterexample :
    Mitch.runOps (Mitch.mkNew ['m'] 0)
        [.connect true true,
         .updateState true (some [0x00, 0x00, 0x00, 0x00, 0x02]),
         .disconnect true] =
      some { name := ['m'], per := 0, connected := false, state := some .SysIdle } ∧
    ¬ SessionInv { name := ['m'], per := 0, connected := false, state := some .SysIdle } := by
  decide

/-- Claim C1 as amended: in every sequence of connect / disconnect /
poll operations from a fresh session, the invariant
"`DeviceOperatingState = None` whenever `ConnectionState =
Disconnected`" holds after every `update_state` (poll) call; it is
not maintained by `disconnect`, which leaves the stale operating
state in place until the next poll. -/
theorem c1_amended (name : List Char) (per : Nat) (ops : List SessionOp)
    (w : Bool) (r : Option (List Nat)) (s' : Mitch)
    (h : Mitch.runOps (Mitch.mkNew name per)
        (ops ++ [SessionOp.updateState w r]) = some s') :
    SessionInv s' := by
  rw [Mitch.runOps_append] at h
  cases hm : Mitch.runOps (Mitch.mkNew name per) ops with
  | none =>
    rw [hm] at h
    cases h
  | some m =>
    rw [hm] at h
    simp only [Option.some_bind, Mitch.runOps, List.foldlM_cons, List.foldlM_nil,
      Mitch.stepOp, Option.bind_eq_bind] at h
    cases hu : m.update_state w r with
    | none =>
      rw [hu] at h
      cases h
    | some out =>
      rw [hu] at h
      simp only [Option.map_some, Option.some_bind, Option.pure_def] at h
      cases h
      exact Mitch.update_state_inv m w r out hu

theorem c1_amended_witness :
    SessionInv { name := ['m'], per := 0, connected := false, state := none } :=
  c1_amended ['m'] 0 [] true none
    { name := ['m'], per := 0, connected := false, state := none } rfl

end Mitchrs

namespace Mitchrs

theorem updateGo_char (envs : Nat → Env) :
    ∀ (idxs : List Nat) (l : List Mitch),
      idxs.Nodup →
      (∀ i ∈ idxs, ∀ m : Mitch, l[i]? = some m → pollStep m (envs i) ≠ none) →
      ∃ l', updateGo envs idxs l = some l' ∧ l'.length = l.length ∧
        (∀ j ∈ idxs, l'[j]? = (l[j]?).bind (fun m => pollStep m (envs j))) ∧
        (∀ j, j ∉ idxs → l'[j]? = l[j]?) := by
  intro idxs
  induction idxs with
  | nil =>
    intro l _ _
    exact ⟨l, rfl, rfl, fun j hj => absurd hj (List.not_mem_nil j), fun _ _ => rfl⟩
  | cons i rest ih =>
    intro l hnd hnp
    have hir : i ∉ rest := (List.nodup_cons.mp hnd).1
    have hndr : rest.Nodup := (List.nodup_cons.mp hnd).2
    cases hg : l[i]? with
    | none =>
      obtain ⟨l', h1, h2, h3, h4⟩ := ih l hndr
        (fun j hj m hm => hnp j (List.mem_cons_of_mem i hj) m hm)
      refine ⟨l', ?_, h2, ?_, ?_⟩
      · simp [updateGo, hg, h1]
      · intro j hj
        rcases List.mem_cons.mp hj with rfl | hj'
        · simp [h4 j hir, hg]
        · exact h3 j hj'
      · intro j hj
        exact h4 j (fun hjr => hj (List.mem_cons_of_mem i hjr))
    | some m =>
      have hps := hnp i (List.mem_cons_self i rest) m hg
      cases hp : pollStep m (envs i) with
      | none => exact absurd hp hps
      | some m' =>
        have hilt : i < l.length := by
          rcases List.getElem?_eq_some.mp hg with ⟨hlt, _⟩
          exact hlt
        have hnp₁ : ∀ j ∈ rest, ∀ mm : Mitch, (l.set i m')[j]? = some mm →
            pollStep mm (envs j) ≠ none := by
          intro j hj mm hmm
          have hij : i ≠ j := fun he => hir (he ▸ hj)
          rw [List.getElem?_set_ne hij] at hmm
          exact hnp j (List.mem_cons_of_mem i hj) mm hmm
        obtain ⟨l', h1, h2, h3, h4⟩ := ih (l.set i m') hndr hnp₁
        refine ⟨l', ?_, ?_, ?_, ?_⟩
        · simp [updateGo, hg, hp, h1]
        · rw [h2, List.length_set]
        · intro j hj
          rcases List.mem_cons.mp hj with rfl | hj'
          · rw [h4 j hir, List.getElem?_set_eq_of_lt m' hilt, hg]
            simp [hp]
          · rw [h3 j hj',
              List.getElem?_set_ne (fun he => hir (by rw [he]; exact hj'))]
        · intro j hj
          have hji : j ≠ i := fun he => hj (he ▸ List.mem_cons_self i rest)
          rw [h4 j (fun hmem => hj (List.mem_cons_of_mem i hmem)),
            List.getElem?_set_ne (Ne.symm hji)]

/-- Claim C3's counterexample: a registry holding one connected
session with operating state `SysIdle` whose poll fails (failed
write) and whose best-effort disconnect succeeds ends up with that
session `Disconnected` but its state still `SysIdle`, not `None` as
the claim requires — `disconnect` never clears the state. -/
theorem c3_counterexample :
    MitchList.update
        [{ name := ['m'], per := 0, connected := true, state := some .SysIdle }]
        (fun _ => { wOk := false, read := none, dOk := true }) =
      some [{ name := ['m'], per := 0, connected := false, state := some .SysIdle }] ∧
    ({ name := ['m'], per := 0, connected := false, state := some .SysIdle } : Mitch).state
      ≠ none := by
  decide

/-- Claim C3 as amended: for every registry in which polls do not
panic, `MitchList.update` returns without propagating any error, and
every session's final value is exactly the per-session fault-isolated
step: a successful poll's result, or — when the poll fails — the
result of a best-effort disconnect (its own failure ignored) applied
to the unchanged session, so the failing session ends `Disconnected`
only if the radio close succeeds and keeps its previous operating
state rather than `None`.  Sessions are visited at indices
`(0..len).rev()`, reverse insertion order (mitch.rs line 255). -/
theorem c3_amended (l : List Mitch) (envs : Nat → Env)
    (hnp : ∀ i, ∀ m : Mitch, l[i]? = some m → pollStep m (envs i) ≠ none) :
    (∃ l', MitchList.update l envs = some l' ∧ l'.length = l.length ∧
      ∀ j, l'[j]? = (l[j]?).bind (fun m => pollStep m (envs j))) ∧
    (∀ (m : Mitch) (e : Env) (mr : Mitch × Bool),
      m.update_state e.wOk e.read = some mr →
      pollStep m e = some (if mr.2 = true then mr.1 else (mr.1.disconnect e.dOk).1)) := by
  constructor
  · obtain ⟨l', h1, h2, h3, h4⟩ := updateGo_char envs (List.range l.length).reverse l
      (List.nodup_reverse.mpr (List.nodup_range l.length))
      (fun i _ m hm => hnp i m hm)
    refine ⟨l', h1, h2, fun j => ?_⟩
    by_cases hj : j < l.length
    · exact h3 j (by simp [List.mem_reverse, List.mem_range, hj])
    · have hnone : l[j]? = none := by
        simp [List.getElem?_eq_none_iff]
        omega
      rw [h4 j (by simp [List.mem_reverse, List.mem_range]; omega), hnone]
      rfl
  · intro m e mr h
    obtain ⟨m1, b⟩ := mr
    unfold pollStep
    rw [h]
    cases b with
    | false => simp
    | true => simp

theorem c3_amended_witness :
    (∃ l' : List Mitch, MitchList.update
        [{ name := ['m'], per := 0, connected := true, state := some .SysIdle }]
        (fun _ => { wOk := false, read := none, dOk := true }) = some l' ∧
      l'.length = 1 ∧
      ∀ j : Nat, l'[j]? =
        (([{ name := ['m'], per := 0, connected := true, state := some .SysIdle }] :
            List Mitch)[j]?).bind
          (fun m => pollStep m { wOk := false, read := none, dOk := true })) ∧
    (∀ (m : Mitch) (e : Env) (mr : Mitch × Bool),
      m.update_state e.wOk e.read = some mr →
      pollStep m e = some (if mr.2 = true then mr.1 else (mr.1.disconnect e.dOk).1)) :=
  c3_amended
    [{ name := ['m'], per := 0, connected := true, state := some .SysIdle }]
    (fun _ => { wOk := false, read := none, dOk := true })
    (fun i m hm => by
      cases i with
      | zero =>
        cases hm
        decide
      | succ n =>
        simp at hm)

end Mitchrs
